import Mathlib

/-
  Verification of the codec, cache-freshness, admission-control, broadcast
  and idempotency layers of a trading-platform backend (spec.md), as a
  shallow embedding of the source under src/.

  Embedding conventions:
  - A Python byte string is a list of byte values (List Nat); a Python str
    is identified with its UTF-8 byte encoding (valid UTF-8 byte sequences
    are in bijection with unicode strings, and Python str equality agrees
    with equality of the encodings).
  - The external lz4 library (lz4.frame.compress / lz4.frame.decompress)
    is not part of the repository; it enters as an explicit function
    parameter.  The only library fact used is that an LZ4 frame starts
    with the magic number 0x04 0x22 0x4D 0x18, i.e. first byte 4.
  - Fallible Python code returns Except; a raised exception is an error
    value.
-/

/-! ## Codec: LZ4 compression helpers (src/app/core/cache.py 1513-1537) -/

/-- `LZ4_COMPRESSION_THRESHOLD = 512  # bytes` from src/app/core/cache.py. -/
def LZ4_COMPRESSION_THRESHOLD : Nat := 512

/-- The byte sequence of the sentinel tag `b"LZ4:"` that `decompress_lz4`
looks for: bytes of the characters L, Z, 4, colon. -/
def lz4SentinelTag : List Nat := [76, 90, 52, 58]

/-- A continuation byte of a UTF-8 multi-byte sequence: 0x80-0xBF. -/
def utf8Cont (b : Nat) : Bool := decide (128 ≤ b) && decide (b < 192)

/-- Validity of a byte list as UTF-8 (what `bytes.decode('utf-8')` accepts):
ASCII bytes stand alone; 2-, 3- and 4-byte sequences need the right number
of continuation bytes, with the restricted first-continuation ranges that
exclude overlong forms and surrogates (leads 0xE0, 0xED, 0xF0, 0xF4). -/
def utf8Valid : List Nat → Bool
  | [] => true
  | b :: rest =>
    if b < 128 then utf8Valid rest
    else if b < 194 then false
    else if b < 224 then
      match rest with
      | c :: r => utf8Cont c && utf8Valid r
      | [] => false
    else if b < 240 then
      match rest with
      | c1 :: c2 :: r =>
        (if b = 224 then decide (160 ≤ c1) && decide (c1 < 192)
         else if b = 237 then decide (128 ≤ c1) && decide (c1 < 160)
         else utf8Cont c1) && utf8Cont c2 && utf8Valid r
      | _ => false
    else if b < 245 then
      match rest with
      | c1 :: c2 :: c3 :: r =>
        (if b = 240 then decide (144 ≤ c1) && decide (c1 < 192)
         else if b = 244 then decide (128 ≤ c1) && decide (c1 < 144)
         else utf8Cont c1) && utf8Cont c2 && utf8Cont c3 && utf8Valid r
      | _ => false
    else false

/-- `compress_lz4` (src/app/core/cache.py 1516-1521), with the external
`lz4.frame.compress` passed in as `lz4c`.  The input is the UTF-8 byte
encoding of the argument (the source encodes a `str` argument first).
Note: the branch that compresses returns `lz4.frame.compress(data)` as is;
no sentinel tag is prepended anywhere in the repository. -/
def compress_lz4 (lz4c : List Nat → List Nat) (data : List Nat) : List Nat :=
  if data.length > LZ4_COMPRESSION_THRESHOLD then lz4c data else data

/-- `decompress_lz4` (src/app/core/cache.py 1530-1537), with the external
`lz4.frame.decompress` passed in as `lz4d`.  If the payload starts with
`b"LZ4:"` it strips the four tag bytes and decompresses, else it decodes
the raw bytes; any exception (in particular a UTF-8 decode error) yields
the empty string sentinel `""` (the empty byte list here). -/
def decompress_lz4 (lz4d : List Nat → List Nat) (data : List Nat) : List Nat :=
  if lz4SentinelTag.isPrefixOf data then
    (let u := lz4d (data.drop 4); if utf8Valid u then u else [])
  else
    (if utf8Valid data then data else [])

/-- If the compressor's output starts with the LZ4 frame magic byte 4 (as
`lz4.frame.compress` output always does) then for every payload above the
compression threshold whose own first byte is not 4, the decode of the
encode is not the original payload: `compress_lz4` never writes the
`b"LZ4:"` tag, so `decompress_lz4` takes the raw branch. -/
theorem decompress_compress_fails_above_threshold
    (lz4c lz4d : List Nat → List Nat)
    (hmagic : ∀ b, (lz4c b).head? = some 4)
    (s : List Nat)
    (hlen : s.length > LZ4_COMPRESSION_THRESHOLD)
    (hhead : s.head? ≠ some 4) :
    decompress_lz4 lz4d (compress_lz4 lz4c s) ≠ s := by
  have hcomp : compress_lz4 lz4c s = lz4c s := if_pos hlen
  obtain ⟨t, ht⟩ : ∃ t, lz4c s = 4 :: t := by
    have h := hmagic s
    cases hc : lz4c s with
    | nil => simp [hc] at h
    | cons a t =>
      refine ⟨t, ?_⟩
      rw [hc] at h
      simp only [List.head?, Option.some_inj] at h
      rw [h]
  have hpre : lz4SentinelTag.isPrefixOf (lz4c s) = false := by
    rw [ht]; rfl
  rw [hcomp, decompress_lz4, hpre]
  simp only [Bool.false_eq_true, if_false]
  by_cases hv : utf8Valid (lz4c s) = true
  · rw [if_pos hv]
    intro heq
    exact hhead (by rw [← heq]; exact hmagic s)
  · rw [if_neg hv]
    intro heq
    have hs0 : s.length = 0 := by rw [← heq]; rfl
    simp [LZ4_COMPRESSION_THRESHOLD] at hlen
    omega

/-- A toy stand-in for `lz4.frame.compress`: the real LZ4 frame magic
number 0x04 0x22 0x4D 0x18 followed by the stored bytes.  It satisfies the
two properties of the real library that matter here: its output starts
with byte 4, and it is inverted by `lz4_frame_toy_decompress`. -/
def lz4_frame_toy_compress (data : List Nat) : List Nat :=
  4 :: 34 :: 77 :: 24 :: data

/-- Inverse of `lz4_frame_toy_compress` (drops the 4 magic bytes). -/
def lz4_frame_toy_decompress (data : List Nat) : List Nat :=
  data.drop 4

/-- C1: the claim that `decompress_lz4 (compress_lz4 s) = s` for every
string `s` is false at the concrete payload of 513 bytes of the letter
`a` (one byte above the 512-byte threshold): `compress_lz4` hands back
the raw LZ4 frame without the `b"LZ4:"` sentinel that `decompress_lz4`
requires, so decoding the encoded form does not restore the payload. -/
theorem compress_lz4_roundtrip_fails_at_threshold_plus_one :
    decompress_lz4 lz4_frame_toy_decompress
        (compress_lz4 lz4_frame_toy_compress (List.replicate 513 97))
      ≠ List.replicate 513 97 := by
  apply decompress_compress_fails_above_threshold
  · intro b; rfl
  · rw [List.length_replicate]; decide
  · decide

/-! ## Admission controller (src/app/dependencies/rate_limiter.py)

Two implementations live in the file.  `ConnectionManager.connect` does an
atomic pipelined INCR (+EXPIRE) and, when the post-increment value exceeds
the maximum, an undo-DECR and rejection.  `WebSocketRateLimiter.check_rate_limit`
(the one used by the public market-data websocket endpoint) does a
non-atomic GET, compare, INCR.  Both are modelled per IP as labelled
transition systems over the shared counter, one atomic external-store
command per step.  TTL expiry of the counter key is outside the step
relations (the claim's steps are tryAdmit and release only). -/

/-- Default `max_connections` of both limiter classes. -/
def max_connections : Nat := 5

/-- Phase of one in-flight `ConnectionManager.connect` call (plus the
release of an admitted connection via `ConnectionManager.disconnect`):
`incremented v` holds the post-increment value the pipeline returned. -/
inductive CmPhase where
  | idle
  | incremented (observed : Int)
  | accepted
  | rejected
  | released
  deriving DecidableEq

/-- Shared per-IP counter plus the phases of the concurrent tasks. -/
structure CmState where
  counter : Int
  tasks : List CmPhase
  deriving DecidableEq

/-- One atomic Redis command of `ConnectionManager.connect` / `.disconnect`:
`tryAdmitIncr i` is task `i`'s pipelined INCR+EXPIRE, `tryAdmitCheck i`
its local comparison with the limit followed by either the undo-DECR and
rejection or the acceptance, `release i` the unconditional DECR of
`disconnect` for an admitted connection. -/
inductive CmAction where
  | tryAdmitIncr (i : Nat)
  | tryAdmitCheck (i : Nat)
  | release (i : Nat)

/-- Executable step of the `ConnectionManager` transition system;
`none` when the action is not enabled. -/
def cmStep (limit : Nat) (a : CmAction) (s : CmState) : Option CmState :=
  match a with
  | .tryAdmitIncr i =>
    match s.tasks[i]? with
    | some .idle => some ⟨s.counter + 1, s.tasks.set i (.incremented (s.counter + 1))⟩
    | _ => none
  | .tryAdmitCheck i =>
    match s.tasks[i]? with
    | some (.incremented v) =>
      if v > (limit : Int) then some ⟨s.counter - 1, s.tasks.set i .rejected⟩
      else some ⟨s.counter, s.tasks.set i .accepted⟩
    | _ => none
  | .release i =>
    match s.tasks[i]? with
    | some .accepted => some ⟨s.counter - 1, s.tasks.set i .released⟩
    | _ => none

/-- Interleaving step relation: some task performs its next atomic command. -/
def CmStepRel (limit : Nat) (s t : CmState) : Prop := ∃ a, cmStep limit a s = some t

/-- Initial state: counter 0 (absent key), `n` tasks about to call connect. -/
def cmInit (n : Nat) : CmState := ⟨0, List.replicate n .idle⟩

/-- States reachable by any interleaving of `n` connect/disconnect calls. -/
def CmReachable (limit n : Nat) (s : CmState) : Prop :=
  Relation.ReflTransGen (CmStepRel limit) (cmInit n) s

def CmPhase.isAccepted : CmPhase → Bool
  | .accepted => true
  | _ => false

def CmPhase.isIncremented : CmPhase → Bool
  | .incremented _ => true
  | _ => false

def CmPhase.isLowIncremented (limit : Nat) : CmPhase → Bool
  | .incremented v => decide (v ≤ (limit : Int))
  | _ => false

/-- Number of currently admitted, not yet released, connections. -/
def cmAdmitted (s : CmState) : Nat := s.tasks.countP CmPhase.isAccepted

/-- Inductive invariant of the `ConnectionManager` system: the counter
equals in-flight increments plus admitted connections, and admitted
connections plus in-flight increments that observed a value within the
limit stay within the limit. -/
def cmInv (limit : Nat) (s : CmState) : Prop :=
  s.counter = (s.tasks.countP CmPhase.isIncremented : Int) + (s.tasks.countP CmPhase.isAccepted : Int)
  ∧ s.tasks.countP CmPhase.isAccepted + s.tasks.countP (CmPhase.isLowIncremented limit) ≤ limit

/-- Additive reformulation of `List.countP_set` driven by `l[i]? = some old`. -/
theorem countP_set_add {α : Type} (p : α → Bool) (l : List α) (i : Nat) (x old : α)
    (h : l[i]? = some old) :
    (l.set i x).countP p + (if p old then 1 else 0)
      = l.countP p + (if p x then 1 else 0) := by
  obtain ⟨hi, hold⟩ := List.getElem?_eq_some_iff.mp h
  have hset := List.countP_set p l i x hi
  have hle := List.boole_getElem_le_countP p l i hi
  rw [hold] at hset hle
  omega

/-- `cmStep` preserves the invariant `cmInv`. -/
theorem cmStep_preserves_inv (limit : Nat) (a : CmAction) (s t : CmState)
    (hinv : cmInv limit s) (hstep : cmStep limit a s = some t) : cmInv limit t := by
  obtain ⟨hc, hb⟩ := hinv
  have hmono : s.tasks.countP (CmPhase.isLowIncremented limit)
      ≤ s.tasks.countP CmPhase.isIncremented := by
    apply List.countP_mono_left
    intro x _ hx
    cases x <;> simp [CmPhase.isLowIncremented, CmPhase.isIncremented] at hx ⊢
  cases a with
  | tryAdmitIncr i =>
    rw [cmStep] at hstep
    cases hget : s.tasks[i]? with
    | none => rw [hget] at hstep; simp at hstep
    | some ph =>
      rw [hget] at hstep
      cases ph with
      | idle =>
        simp at hstep
        subst hstep
        have hIncr := countP_set_add CmPhase.isIncremented s.tasks i
          (.incremented (s.counter + 1)) .idle hget
        have hAcc := countP_set_add CmPhase.isAccepted s.tasks i
          (.incremented (s.counter + 1)) .idle hget
        have hLow := countP_set_add (CmPhase.isLowIncremented limit) s.tasks i
          (.incremented (s.counter + 1)) .idle hget
        simp only [cmInv]
        by_cases hv : s.counter + 1 ≤ (limit : Int)
        · simp [CmPhase.isIncremented, CmPhase.isAccepted, CmPhase.isLowIncremented, hv]
            at hIncr hAcc hLow
          constructor
          · omega
          · omega
        · simp [CmPhase.isIncremented, CmPhase.isAccepted, CmPhase.isLowIncremented, hv]
            at hIncr hAcc hLow
          constructor
          · omega
          · omega
      | incremented v => simp at hstep
      | accepted => simp at hstep
      | rejected => simp at hstep
      | released => simp at hstep
  | tryAdmitCheck i =>
    rw [cmStep] at hstep
    cases hget : s.tasks[i]? with
    | none => rw [hget] at hstep; simp at hstep
    | some ph =>
      rw [hget] at hstep
      cases ph with
      | incremented v =>
        by_cases hv : v > (limit : Int)
        · simp only [hv, if_true, Option.some_inj] at hstep
          subst hstep
          have hvle : ¬(v ≤ (limit : Int)) := by omega
          have hIncr := countP_set_add CmPhase.isIncremented s.tasks i
            .rejected (.incremented v) hget
          have hAcc := countP_set_add CmPhase.isAccepted s.tasks i
            .rejected (.incremented v) hget
          have hLow := countP_set_add (CmPhase.isLowIncremented limit) s.tasks i
            .rejected (.incremented v) hget
          simp [CmPhase.isIncremented, CmPhase.isAccepted, CmPhase.isLowIncremented, hvle]
            at hIncr hAcc hLow
          simp only [cmInv]
          constructor
          · omega
          · omega
        · simp only [hv, if_false, Option.some_inj] at hstep
          subst hstep
          have hvle : v ≤ (limit : Int) := by omega
          have hIncr := countP_set_add CmPhase.isIncremented s.tasks i
            .accepted (.incremented v) hget
          have hAcc := countP_set_add CmPhase.isAccepted s.tasks i
            .accepted (.incremented v) hget
          have hLow := countP_set_add (CmPhase.isLowIncremented limit) s.tasks i
            .accepted (.incremented v) hget
          simp [CmPhase.isIncremented, CmPhase.isAccepted, CmPhase.isLowIncremented, hvle]
            at hIncr hAcc hLow
          simp only [cmInv]
          constructor
          · omega
          · omega
      | idle => simp at hstep
      | accepted => simp at hstep
      | rejected => simp at hstep
      | released => simp at hstep
  | release i =>
    rw [cmStep] at hstep
    cases hget : s.tasks[i]? with
    | none => rw [hget] at hstep; simp at hstep
    | some ph =>
      rw [hget] at hstep
      cases ph with
      | accepted =>
        simp at hstep
        subst hstep
        have hIncr := countP_set_add CmPhase.isIncremented s.tasks i
          .released .accepted hget
        have hAcc := countP_set_add CmPhase.isAccepted s.tasks i
          .released .accepted hget
        have hLow := countP_set_add (CmPhase.isLowIncremented limit) s.tasks i
          .released .accepted hget
        simp [CmPhase.isIncremented, CmPhase.isAccepted, CmPhase.isLowIncremented]
          at hIncr hAcc hLow
        simp only [cmInv]
        constructor
        · omega
        · omega
      | idle => simp at hstep
      | incremented v => simp at hstep
      | rejected => simp at hstep
      | released => simp at hstep

/-- C4 (amended): under every interleaving of concurrent
`ConnectionManager.connect` / `ConnectionManager.disconnect` calls for one
IP, the number of admitted, not-yet-released connections never exceeds the
configured maximum: the pipelined INCR is atomic and the undo-DECR of a
failed attempt restores the counter.  (This is the tryAdmit of the claim;
the non-atomic `WebSocketRateLimiter.check_rate_limit` violates the bound,
see the counterexample theorem.) -/
theorem ConnectionManager.connect_admission_bound (limit n : Nat) (s : CmState)
    (h : CmReachable limit n s) : cmAdmitted s ≤ limit := by
  have hinv : cmInv limit s := by
    induction h with
    | refl =>
      simp [cmInv, cmInit, List.countP_replicate, CmPhase.isIncremented,
        CmPhase.isAccepted, CmPhase.isLowIncremented]
    | tail hab hbc ih =>
      obtain ⟨a, ha⟩ := hbc
      exact cmStep_preserves_inv limit a _ _ ih ha
  obtain ⟨h1, h2⟩ := hinv
  rw [cmAdmitted]
  omega

/-- Witness: after one full admission (INCR observing 1, then accept) from
the empty two-task state, the bound of the admission theorem holds. -/
theorem ConnectionManager.connect_admission_bound_witness :
    cmAdmitted ⟨1, [CmPhase.accepted, CmPhase.idle]⟩ ≤ 5 :=
  ConnectionManager.connect_admission_bound 5 2 ⟨1, [CmPhase.accepted, CmPhase.idle]⟩
    (Relation.ReflTransGen.tail
      (Relation.ReflTransGen.tail Relation.ReflTransGen.refl
        (show CmStepRel 5 (cmInit 2) ⟨1, [CmPhase.incremented 1, CmPhase.idle]⟩ from
          ⟨CmAction.tryAdmitIncr 0, by decide⟩))
      (show CmStepRel 5 ⟨1, [CmPhase.incremented 1, CmPhase.idle]⟩
          ⟨1, [CmPhase.accepted, CmPhase.idle]⟩ from
        ⟨CmAction.tryAdmitCheck 0, by decide⟩))

/-- Phase of one in-flight `WebSocketRateLimiter.check_rate_limit` call:
`got v` holds the counter value the non-atomic GET returned
(`int(current) if current else 0`). -/
inductive RlPhase where
  | idle
  | got (observed : Int)
  | admitted
  | denied
  deriving DecidableEq

/-- Shared per-IP counter plus phases of concurrent check_rate_limit calls. -/
structure RlState where
  counter : Int
  tasks : List RlPhase
  deriving DecidableEq

/-- One atomic Redis command of `WebSocketRateLimiter.check_rate_limit`:
`get i` is task `i`'s GET of the current count; `checkAndIncr i` is its
local `current_count >= self.max_connections` comparison followed (in the
allow branch) by the pipelined INCR+EXPIRE. -/
inductive RlAction where
  | get (i : Nat)
  | checkAndIncr (i : Nat)

/-- Executable step of the `WebSocketRateLimiter` transition system. -/
def rlStep (limit : Nat) (a : RlAction) (s : RlState) : Option RlState :=
  match a with
  | .get i =>
    match s.tasks[i]? with
    | some .idle => some ⟨s.counter, s.tasks.set i (.got s.counter)⟩
    | _ => none
  | .checkAndIncr i =>
    match s.tasks[i]? with
    | some (.got v) =>
      if v ≥ (limit : Int) then some ⟨s.counter, s.tasks.set i .denied⟩
      else some ⟨s.counter + 1, s.tasks.set i .admitted⟩
    | _ => none

/-- Run a schedule of interleaved rate-limiter commands. -/
def rlRun (limit : Nat) : List RlAction → RlState → Option RlState
  | [], s => some s
  | a :: rest, s =>
    match rlStep limit a s with
    | some t => rlRun limit rest t
    | none => none

/-- Initial state: counter 0 (absent key), `n` pending check_rate_limit calls. -/
def rlInit (n : Nat) : RlState := ⟨0, List.replicate n .idle⟩

/-- Number of calls `check_rate_limit` admitted. -/
def rlAdmitted (s : RlState) : Nat :=
  s.tasks.countP fun p => match p with | .admitted => true | _ => false

/-- C4 counterexample: `WebSocketRateLimiter.check_rate_limit` (the
admission check used by the public market-data endpoint) separates the GET
from the INCR, so an interleaving of six concurrent calls in which tasks 4
and 5 both GET the value 4 before either increments admits six connections
from one IP — above the configured maximum of 5, contradicting the claimed
admission bound. -/
theorem WebSocketRateLimiter.check_rate_limit_breaks_admission_bound :
    (rlRun max_connections
        [.get 0, .checkAndIncr 0, .get 1, .checkAndIncr 1, .get 2, .checkAndIncr 2,
         .get 3, .checkAndIncr 3, .get 4, .get 5, .checkAndIncr 4, .checkAndIncr 5]
        (rlInit 6)).map rlAdmitted = some 6
      ∧ max_connections < 6 := by
  constructor
  · decide
  · decide

/-- `WebSocketRateLimiter.release_connection`
(src/app/dependencies/rate_limiter.py 111-124): GET the stored count, and
DECR only when a value is present and strictly positive (Python:
`if current and int(current) > 0`).  The result is the stored counter
value afterwards (`none` = key absent). -/
def WebSocketRateLimiter.release_connection (stored : Option Int) : Option Int :=
  match stored with
  | none => none
  | some v => if v > 0 then some (v - 1) else some v

/-- The DECR of `ConnectionManager.disconnect`
(src/app/dependencies/rate_limiter.py 61-73): unconditional; Redis DECR
treats an absent key as 0 and stores the decremented value. -/
def ConnectionManager.disconnect (stored : Option Int) : Option Int :=
  some (stored.getD 0 - 1)

/-- C5 counterexample: a release that goes through
`ConnectionManager.disconnect` at stored counter 0 drives the counter to
-1, contradicting the claim that the counter after any release is never
below 0 (its DECR has no ≤ 0 guard). -/
theorem ConnectionManager.disconnect_goes_negative :
    ConnectionManager.disconnect (some 0) = some (-1) ∧ (-1 : Int) < 0 :=
  ⟨rfl, by decide⟩

/-- C5 (amended): `WebSocketRateLimiter.release_connection` decrements a
strictly positive stored counter and is a no-op when the key is absent or
the stored value is ≤ 0, so starting from a non-negative counter it never
produces a negative one. -/
theorem WebSocketRateLimiter.release_connection_never_negative
    (stored : Option Int) (h : 0 ≤ stored.getD 0) :
    0 ≤ (WebSocketRateLimiter.release_connection stored).getD 0 ∧
      (∀ v : Int, stored = some v → 0 < v →
        WebSocketRateLimiter.release_connection stored = some (v - 1)) := by
  cases stored with
  | none =>
    refine ⟨by simp [WebSocketRateLimiter.release_connection], ?_⟩
    intro v hv
    simp at hv
  | some w =>
    simp only [Option.getD_some] at h
    constructor
    · by_cases hw : w > 0
      · simp [WebSocketRateLimiter.release_connection, hw]
        omega
      · simp [WebSocketRateLimiter.release_connection, hw]
        omega
    · intro v hv hpos
      rw [Option.some_inj] at hv
      subst hv
      simp [WebSocketRateLimiter.release_connection, hpos]

/-- Witness for the release theorem at stored counter 2. -/
theorem WebSocketRateLimiter.release_connection_never_negative_witness :
    0 ≤ (WebSocketRateLimiter.release_connection (some 2)).getD 0 :=
  (WebSocketRateLimiter.release_connection_never_negative (some 2) (by decide)).1

/-! ## Idempotency service (src/app/core/idempotency.py)

The derived key and the request hash are SHA-256 digests of the sorted
JSON normalization; both arrive here as opaque input strings (their
derivation is deterministic and not at issue in the claims).  A row of the
IdempotencyKeys table is embedded as a record; times are naturals.  The
source constructor call in create_idempotency_record passes no
request_hash and no response_data, so records it creates carry none. -/

structure IdemRecord where
  idempotency_key : String
  user_id : Nat
  user_type : String
  endpoint_name : String
  status : String
  expires_at : Nat
  request_hash : Option String
  response_data : Option String
  deriving DecidableEq

/-- Error-shaped outcomes of the idempotency handlers. -/
inductive IdemErr where
  | multipleResults
  | http429
  | http409
  | typeErrorMissingArg
  deriving DecidableEq

/-- `cleanup_expired_keys` (idempotency.py 101-125): delete every record
with `expires_at < current_time` (strict). -/
def cleanup_expired_keys (db : List IdemRecord) (now : Nat) : List IdemRecord :=
  db.filter fun r => !decide (r.expires_at < now)

/-- The WHERE clause of `check_duplicate_request` (idempotency.py 78-88):
all four identity fields equal and `expires_at > now` (strict). -/
def matches_duplicate_query (k : String) (uid : Nat) (ut ep : String) (now : Nat)
    (r : IdemRecord) : Bool :=
  r.idempotency_key == k && r.user_id == uid && r.user_type == ut
    && r.endpoint_name == ep && decide (now < r.expires_at)

/-- SQLAlchemy `scalar_one_or_none`: none for zero rows, the row for one,
raises for more than one. -/
def scalar_one_or_none (rows : List IdemRecord) : Except IdemErr (Option IdemRecord) :=
  match rows with
  | [] => .ok none
  | [r] => .ok (some r)
  | _ => .error .multipleResults

/-- `IdempotencyService.check_duplicate_request` (idempotency.py 53-99):
sweep expired records, then look up a non-expired record matching key,
user_id, user_type and endpoint.  Returns the swept table and the found
record, if any. -/
def check_duplicate_request (db : List IdemRecord) (k : String) (uid : Nat)
    (ut ep : String) (now : Nat) :
    Except IdemErr (List IdemRecord × Option IdemRecord) :=
  let db1 := cleanup_expired_keys db now
  match scalar_one_or_none (db1.filter (matches_duplicate_query k uid ut ep now)) with
  | .ok r => .ok (db1, r)
  | .error e => .error e

/-- `IdempotencyService.create_idempotency_record` (idempotency.py
127-174): inserts a fresh record with status `processing` expiring at
`now + ttl_seconds`.  The received `request_hash` parameter is NOT passed
to the `IdempotencyKeys(...)` constructor, so the stored record's
request_hash is null. -/
def create_idempotency_record (db : List IdemRecord) (k : String) (uid : Nat)
    (ut ep : String) (ttl_seconds now : Nat) : List IdemRecord × IdemRecord :=
  let r : IdemRecord :=
    ⟨k, uid, ut, ep, "processing", now + ttl_seconds, none, none⟩
  (db ++ [r], r)

/-- `IdempotencyService.handle_duplicate_request` (idempotency.py
209-224): always raises HTTP 429 Too Many Requests. -/
def handle_duplicate_request (existing : IdemRecord) : Except IdemErr Unit :=
  .error .http429

/-- `handle_backend_idempotency` (idempotency.py 227-267), sequential
semantics: check for a duplicate; reject a found duplicate through
`handle_duplicate_request`; else create the 5-second-TTL record.  The
result carries the new table and the created record; there is no replay
channel at all in this flow. -/
def handle_backend_idempotency (db : List IdemRecord) (uid : Nat) (ut ep : String)
    (k : String) (now : Nat) : Except IdemErr (List IdemRecord × IdemRecord) :=
  match check_duplicate_request db k uid ut ep now with
  | .error e => .error e
  | .ok (_, some existing) =>
    match handle_duplicate_request existing with
    | .error e => .error e
    | .ok _ => .error .http429
  | .ok (db1, none) => .ok (create_idempotency_record db1 k uid ut ep 5 now)

/-- Records matching the duplicate query survive the expiry sweep, so
filtering the swept table equals filtering the original table. -/
theorem filter_cleanup_matches (db : List IdemRecord) (k : String) (uid : Nat)
    (ut ep : String) (now : Nat) :
    (cleanup_expired_keys db now).filter (matches_duplicate_query k uid ut ep now)
      = db.filter (matches_duplicate_query k uid ut ep now) := by
  rw [cleanup_expired_keys, List.filter_filter]
  apply List.filter_congr
  intro r _
  cases hm : matches_duplicate_query k uid ut ep now r with
  | false => simp
  | true =>
    simp only [Bool.true_and]
    rw [matches_duplicate_query] at hm
    simp only [Bool.and_eq_true, decide_eq_true_eq] at hm
    simp only [Bool.not_eq_true', decide_eq_false_iff_not]
    omega

/-- C7: for every backend-derived key, a duplicate is detected exactly
when a record matching key, user_id, user_type and endpoint with
`expires_at` strictly in the future exists; a detected duplicate is
rejected with the 429 too-many-requests signal (never replayed — the
backend flow has no replay channel), and when every matching record is
TTL-expired the request is treated as fresh: a new `processing` record
with the 5-second TTL is created.  The hypothesis is the spec's invariant
that at most one non-expired record exists per key. -/
theorem handle_backend_idempotency_rejects_duplicates_429 (db : List IdemRecord)
    (k : String) (uid : Nat) (ut ep : String) (now : Nat)
    (hUnique : (db.filter (matches_duplicate_query k uid ut ep now)).length ≤ 1) :
    ((∃ r ∈ db, matches_duplicate_query k uid ut ep now r = true) →
        handle_backend_idempotency db uid ut ep k now = .error .http429)
    ∧ ((∀ r ∈ db, matches_duplicate_query k uid ut ep now r = false) →
        handle_backend_idempotency db uid ut ep k now
          = .ok (create_idempotency_record (cleanup_expired_keys db now) k uid ut ep 5 now)
        ∧ (create_idempotency_record (cleanup_expired_keys db now) k uid ut ep 5 now).2.status
            = "processing"
        ∧ (create_idempotency_record (cleanup_expired_keys db now) k uid ut ep 5 now).2.expires_at
            = now + 5) := by
  constructor
  · rintro ⟨r, hr, hm⟩
    have hne : db.filter (matches_duplicate_query k uid ut ep now) ≠ [] := by
      intro hnil
      rw [List.filter_eq_nil_iff] at hnil
      exact hnil r hr hm
    have hlen1 : (db.filter (matches_duplicate_query k uid ut ep now)).length = 1 := by
      have := List.length_pos.mpr hne
      omega
    obtain ⟨r1, hr1⟩ := List.length_eq_one.mp hlen1
    rw [handle_backend_idempotency, check_duplicate_request]
    rw [filter_cleanup_matches, hr1]
    rfl
  · intro hall
    have hnil : db.filter (matches_duplicate_query k uid ut ep now) = [] := by
      rw [List.filter_eq_nil_iff]
      intro r hr
      rw [hall r hr]
      simp
    refine ⟨?_, rfl, rfl⟩
    rw [handle_backend_idempotency, check_duplicate_request]
    rw [filter_cleanup_matches, hnil]
    rfl

/-- Witness for the duplicate-rejection theorem: one non-expired matching
record makes the handler answer 429, and on an empty table the handler
creates the fresh 5-second record. -/
theorem handle_backend_idempotency_rejects_duplicates_429_witness :
    handle_backend_idempotency
        [⟨"k1", 7, "live", "place_order", "processing", 10, none, none⟩]
        7 "live" "place_order" "k1" 6
      = .error .http429 :=
  (handle_backend_idempotency_rejects_duplicates_429
      [⟨"k1", 7, "live", "place_order", "processing", 10, none, none⟩]
      "k1" 7 "live" "place_order" 6 (by decide)).1
    ⟨⟨"k1", 7, "live", "place_order", "processing", 10, none, none⟩, by decide, by decide⟩

/-- Phase of one in-flight `handle_backend_idempotency` call in the
concurrent model: `checked found` records whether the SELECT of
`check_duplicate_request` saw a non-expired record for the derived key. -/
inductive BkPhase where
  | idle
  | checked (foundExisting : Bool)
  | proceeded
  | dupRejected
  | insertConflict
  deriving DecidableEq

/-- Shared state for two-or-more concurrent mutating requests carrying the
identical derived key within one 5-second window: whether a (non-expired)
IdempotencyKeys row with that key exists, plus the task phases. -/
structure BkState where
  rowExists : Bool
  tasks : List BkPhase
  deriving DecidableEq

/-- One atomic database transaction of `handle_backend_idempotency`:
`check i` is task `i`'s SELECT (check_duplicate_request); `resolve i` is
the pure duplicate decision followed by either the 429 rejection or the
INSERT+commit of create_idempotency_record.  Modelled from the spec: the
IdempotencyKeys table (app/database/models.py, not under src/) enforces
row uniqueness on the key — spec section 5, checks are "linearized through
the relational store's row uniqueness/locking on (key)" — so an INSERT
that races with an already-committed row raises a conflict error instead
of committing. -/
inductive BkAction where
  | check (i : Nat)
  | resolve (i : Nat)

def bkStep (a : BkAction) (s : BkState) : Option BkState :=
  match a with
  | .check i =>
    match s.tasks[i]? with
    | some .idle => some ⟨s.rowExists, s.tasks.set i (.checked s.rowExists)⟩
    | _ => none
  | .resolve i =>
    match s.tasks[i]? with
    | some (.checked found) =>
      if found then some ⟨s.rowExists, s.tasks.set i .dupRejected⟩
      else if s.rowExists then some ⟨s.rowExists, s.tasks.set i .insertConflict⟩
      else some ⟨true, s.tasks.set i .proceeded⟩
    | _ => none

/-- Interleaving step relation for concurrent backend-idempotency calls. -/
def BkStepRel (s t : BkState) : Prop := ∃ a, bkStep a s = some t

/-- Initial state: no record for the key, `n` requests about to run. -/
def bkInit (n : Nat) : BkState := ⟨false, List.replicate n .idle⟩

/-- States reachable by any interleaving of `n` concurrent calls. -/
def BkReachable (n : Nat) (s : BkState) : Prop :=
  Relation.ReflTransGen BkStepRel (bkInit n) s

/-- Run a schedule of interleaved backend-idempotency transactions. -/
def bkRun : List BkAction → BkState → Option BkState
  | [], s => some s
  | a :: rest, s =>
    match bkStep a s with
    | some t => bkRun rest t
    | none => none

def BkPhase.isProceeded : BkPhase → Bool
  | .proceeded => true
  | _ => false

/-- Number of calls that created a record and returned it ("proceed"). -/
def bkProceeded (s : BkState) : Nat := s.tasks.countP BkPhase.isProceeded

/-- Inductive invariant: a proceed both requires and establishes the row. -/
def bkInv (s : BkState) : Prop :=
  (s.rowExists = false → bkProceeded s = 0) ∧ bkProceeded s ≤ 1

/-- `bkStep` preserves the invariant `bkInv`. -/
theorem bkStep_preserves_inv (a : BkAction) (s t : BkState)
    (hinv : bkInv s) (hstep : bkStep a s = some t) : bkInv t := by
  obtain ⟨h0, h1⟩ := hinv
  cases a with
  | check i =>
    rw [bkStep] at hstep
    cases hget : s.tasks[i]? with
    | none => rw [hget] at hstep; simp at hstep
    | some ph =>
      rw [hget] at hstep
      cases ph with
      | idle =>
        simp at hstep
        subst hstep
        have hP := countP_set_add BkPhase.isProceeded s.tasks i
          (.checked s.rowExists) .idle hget
        simp [BkPhase.isProceeded] at hP
        rw [bkInv]
        rw [bkProceeded] at h0 h1
        rw [bkProceeded]
        dsimp only
        constructor
        · intro h
          rw [hP]
          exact h0 h
        · omega
      | checked f => simp at hstep
      | proceeded => simp at hstep
      | dupRejected => simp at hstep
      | insertConflict => simp at hstep
  | resolve i =>
    rw [bkStep] at hstep
    cases hget : s.tasks[i]? with
    | none => rw [hget] at hstep; simp at hstep
    | some ph =>
      cases ph with
      | checked found =>
        rw [hget] at hstep
        rw [bkInv]
        rw [bkProceeded] at h0 h1
        rw [bkProceeded]
        cases found with
        | true =>
          simp at hstep
          subst hstep
          have hP := countP_set_add BkPhase.isProceeded s.tasks i
            .dupRejected (.checked true) hget
          simp [BkPhase.isProceeded] at hP
          dsimp only
          constructor
          · intro h; rw [hP]; exact h0 h
          · omega
        | false =>
          cases hrow : s.rowExists with
          | true =>
            simp [hrow] at hstep
            subst hstep
            have hP := countP_set_add BkPhase.isProceeded s.tasks i
              .insertConflict (.checked false) hget
            simp [BkPhase.isProceeded] at hP
            dsimp only
            constructor
            · intro h; simp at h
            · omega
          | false =>
            simp [hrow] at hstep
            subst hstep
            have hP := countP_set_add BkPhase.isProceeded s.tasks i
              .proceeded (.checked false) hget
            simp [BkPhase.isProceeded] at hP
            have hz := h0 hrow
            dsimp only
            constructor
            · intro h; simp at h
            · omega
      | idle => rw [hget] at hstep; simp at hstep
      | proceeded => rw [hget] at hstep; simp at hstep
      | dupRejected => rw [hget] at hstep; simp at hstep
      | insertConflict => rw [hget] at hstep; simp at hstep

/-- C2 (amended): over every interleaving of concurrent mutating requests
with the identical derived key, at most one `handle_backend_idempotency`
call creates a record and returns "proceed"; the relational uniqueness on
the key (modelled from the spec) stops the second INSERT. -/
theorem handle_backend_idempotency_at_most_one_proceeds (n : Nat) (s : BkState)
    (h : BkReachable n s) : bkProceeded s ≤ 1 := by
  have hinv : bkInv s := by
    induction h with
    | refl =>
      constructor
      · intro
        simp [bkProceeded, bkInit, List.countP_replicate, BkPhase.isProceeded]
      · simp [bkProceeded, bkInit, List.countP_replicate, BkPhase.isProceeded]
    | tail hab hbc ih =>
      obtain ⟨a, ha⟩ := hbc
      exact bkStep_preserves_inv a _ _ ih ha
  exact hinv.2

/-- Witness: after one complete call (check, then insert) from the empty
two-request state, the at-most-one-proceed bound of the theorem holds. -/
theorem handle_backend_idempotency_at_most_one_proceeds_witness :
    bkProceeded ⟨true, [BkPhase.proceeded, BkPhase.idle]⟩ ≤ 1 :=
  handle_backend_idempotency_at_most_one_proceeds 2
    ⟨true, [BkPhase.proceeded, BkPhase.idle]⟩
    (Relation.ReflTransGen.tail
      (Relation.ReflTransGen.tail Relation.ReflTransGen.refl
        (show BkStepRel (bkInit 2) ⟨false, [BkPhase.checked false, BkPhase.idle]⟩ from
          ⟨BkAction.check 0, by decide⟩))
      (show BkStepRel ⟨false, [BkPhase.checked false, BkPhase.idle]⟩
          ⟨true, [BkPhase.proceeded, BkPhase.idle]⟩ from
        ⟨BkAction.resolve 0, by decide⟩))

/-- C2 counterexample: in the schedule where both concurrent requests run
their SELECT before either INSERT commits, both observe "no existing
record" (both end in a phase reachable only from `checked false`), and the
loser is stopped by the INSERT conflict — not by observing the existing
record and being rejected as a duplicate, as the claim states.  The
check-then-insert of `handle_backend_idempotency` spans two transactions,
so the claimed "never both observe absent" is false. -/
theorem handle_backend_idempotency_both_observe_no_record :
    bkRun [.check 0, .check 1, .resolve 0, .resolve 1] (bkInit 2)
      = some ⟨true, [BkPhase.proceeded, BkPhase.insertConflict]⟩ := by
  decide

/-- Legacy `handle_idempotency` (idempotency.py 271-314).  Looks up the
client-supplied key (no expiry filter), raises 409 when the stored
request hash differs (Python `!=`, so a null stored hash differs from any
supplied hash), replays the stored response of a completed record, and
otherwise falls through to record creation.  That creation call —
`create_idempotency_record(db, idempotency_key, user_id, endpoint,
request_hash, ttl_seconds=86400)` — passes five positional arguments to a
function whose first six parameters are required (`user_type` receives the
endpoint, `endpoint` the request hash, `request_hash` nothing), so Python
raises TypeError before any record is created; the fall-through branch is
therefore the error. -/
def handle_idempotency (db : List IdemRecord) (idempotency_key : Option String)
    (user_id : Nat) (user_type endpoint : String) (request_hash : String)
    (now : Nat) :
    Except IdemErr (List IdemRecord × Option IdemRecord × Option String) :=
  match idempotency_key with
  | none => .ok (db, none, none)
  | some key =>
    match scalar_one_or_none (db.filter fun r => r.idempotency_key == key) with
    | .error e => .error e
    | .ok (some existing) =>
      if existing.request_hash ≠ some request_hash then .error .http409
      else if existing.status == "completed" && existing.response_data.isSome then
        .ok (db, some existing, existing.response_data)
      else .error .typeErrorMissingArg
    | .ok none => .error .typeErrorMissingArg

/-- C8: with a fresh client-supplied key (no existing record) the legacy
handler is claimed to create and return a `processing` record with the
24-hour TTL; instead the broken positional call into
`create_idempotency_record` raises TypeError, so no record is ever
created on this path. -/
theorem handle_idempotency_create_path_raises_type_error :
    handle_idempotency [] (some "abc123") 7 "live" "place_order" "deadbeef" 100
      = .error .typeErrorMissingArg := rfl

/-! ## Freshness engine (src/app/core/cache.py 1841-1936)

Decimal amounts enter as integers scaled to a fixed number of places; only
sign and order matter to the claims.  A cached field that fails the
`Decimal(str(...))` parse is `nonNum`.  The collaborators — the cache read
(`get_user_balance_margin_cache`), the DB row (`get_user_by_id` /
`get_demo_user_by_id`) and the margin aggregation
(`calculate_total_user_margin`) — enter as the values they produced, and
`boom` models an unexpected exception raised during steps 2-4 (the
`except` branch re-reads the DB row and falls back to its raw values).
The write+verify+retry of strategy 3 never changes the returned
dictionary, so it does not appear in the returned value. -/

inductive NumData where
  | num (q : Int)
  | nonNum
  deriving DecidableEq

structure DbUserRow where
  wallet_balance : Int
  margin : Int
  deriving DecidableEq

/-- The dictionary `refresh_balance_margin_cache_with_fallback` returns:
its `wallet_balance` and `margin` fields and whether it carries the
`fallback: True` tag (the normal return carries `cache_version` instead). -/
structure BalanceMarginResult where
  wallet_balance : Int
  margin : Int
  fallback : Bool
  deriving DecidableEq

/-- Strategies 2-4 of `refresh_balance_margin_cache_with_fallback`: on an
exception (`boom`) return the raw DB row tagged fallback (or None when the
user is absent); otherwise clamp a negative aggregated margin to zero and
return the DB balance with the clamped margin. -/
def refresh_from_db (db_user : Option DbUserRow) (total_user_margin : Int)
    (boom : Bool) : Option BalanceMarginResult :=
  if boom then
    match db_user with
    | some u => some ⟨u.wallet_balance, u.margin, true⟩
    | none => none
  else
    match db_user with
    | none => none
    | some u =>
      let tm := if total_user_margin < 0 then 0 else total_user_margin
      some ⟨u.wallet_balance, tm, false⟩

/-- `refresh_balance_margin_cache_with_fallback` (cache.py 1841-1936):
return the cached pair when both fields parse and are non-negative,
else refresh from the database. -/
def refresh_balance_margin_cache_with_fallback
    (current_cache : Option (NumData × NumData)) (db_user : Option DbUserRow)
    (total_user_margin : Int) (boom : Bool) : Option BalanceMarginResult :=
  match current_cache with
  | some (NumData.num b, NumData.num m) =>
    if 0 ≤ b ∧ 0 ≤ m then some ⟨b, m, false⟩
    else refresh_from_db db_user total_user_margin boom
  | some _ => refresh_from_db db_user total_user_margin boom
  | none => refresh_from_db db_user total_user_margin boom

/-- C3 counterexample: the refresh returns a negative amount on two paths
the claim covers.  With DB row balance 1000, margin -5 and an exception
(fallback path), the returned margin is the raw -5; with DB row balance
-7 on the normal path, the returned wallet_balance is the raw -7 (only
the aggregated margin is clamped, the balance never is). -/
theorem refresh_balance_margin_returns_negative_values :
    refresh_balance_margin_cache_with_fallback none (some ⟨1000, -5⟩) 2 true
        = some ⟨1000, -5, true⟩
      ∧ (-5 : Int) < 0
      ∧ refresh_balance_margin_cache_with_fallback none (some ⟨-7, 0⟩) 0 false
        = some ⟨-7, 0, false⟩
      ∧ (-7 : Int) < 0 := by
  refine ⟨rfl, by decide, rfl, by decide⟩

/-- C3 (amended): every dictionary the refresh returns without the
fallback tag has a non-negative margin — the cache-hit path requires both
cached fields non-negative and the refresh path clamps a negative
aggregated margin to zero.  (The returned wallet_balance is the raw DB
value and the fallback path returns the raw DB row unclamped.) -/
theorem refresh_balance_margin_clamps_margin
    (current_cache : Option (NumData × NumData)) (db_user : Option DbUserRow)
    (total_user_margin : Int) (boom : Bool) (r : BalanceMarginResult)
    (h : refresh_balance_margin_cache_with_fallback current_cache db_user
        total_user_margin boom = some r)
    (hnf : r.fallback = false) : 0 ≤ r.margin := by
  have hdb : refresh_from_db db_user total_user_margin boom = some r → 0 ≤ r.margin := by
    intro hd
    simp only [refresh_from_db] at hd
    cases boom with
    | true =>
      cases db_user with
      | none => simp at hd
      | some u =>
        simp at hd
        rw [← hd] at hnf
        simp at hnf
    | false =>
      simp only [Bool.false_eq_true, if_false] at hd
      cases db_user with
      | none => simp at hd
      | some u =>
        simp only [Option.some_inj] at hd
        rw [← hd]
        dsimp only
        by_cases hm : total_user_margin < 0
        · simp [hm]
        · simp [hm]; omega
  match current_cache with
  | none => exact hdb h
  | some (NumData.num b, NumData.num m) =>
    rw [refresh_balance_margin_cache_with_fallback] at h
    by_cases hbm : 0 ≤ b ∧ 0 ≤ m
    · rw [if_pos hbm, Option.some_inj] at h
      rw [← h]
      exact hbm.2
    · rw [if_neg hbm] at h
      exact hdb h
  | some (NumData.num b, NumData.nonNum) => exact hdb h
  | some (NumData.nonNum, m) => exact hdb h

/-- Witness: the spec scenario — cache miss, DB balance 1000, aggregated
margin -5, no exception — returns margin 0, which is non-negative. -/
theorem refresh_balance_margin_clamps_margin_witness :
    (0 : Int) ≤ (⟨1000, 0, false⟩ : BalanceMarginResult).margin :=
  refresh_balance_margin_clamps_margin none (some ⟨1000, 0⟩) (-5) false
    ⟨1000, 0, false⟩ (by decide) rfl

/-! ## Broadcaster fan-in filter (src/app/services/raw_price_broadcaster.py)

A parsed tick batch is an association list from symbol to JSON value; the
type of JSON leaves is a parameter `A`.  `TickVal.dict` is a JSON object
(what `isinstance(prices, dict)` accepts), `TickVal.atom` any other JSON
value.  The broadcast itself sends the reshaped batch, as one message, to
every current subscriber (see the broadcast/disconnect section below), so
an entry is delivered to a subscriber exactly when it is in the reshaped
batch. -/

/-- The fixed symbol whitelist `symbols_to_broadcast` (the set literal,
here in source order). -/
def symbols_to_broadcast : List String :=
  ["AUDJPY", "AUDCAD", "AUDUSD", "JP225", "US30",
   "D30", "CADJPY", "BTCUSD", "XAUUSD", "XAGUSD", "EURNZD"]

/-- Python `str.upper()` (symbols are ASCII, on which `Char.toUpper`
agrees with Python's per-character uppercasing). -/
def pyUpper (s : String) : String := String.mk (s.data.map Char.toUpper)

/-- A JSON value as the fan-in task sees it: an object with fields, or
anything else. -/
inductive TickVal (A : Type) where
  | dict (fields : List (String × A))
  | atom (v : A)

/-- Python `d.get(k)` on an association list: the first binding's value,
`none` when the key is absent. -/
def dictGet {A : Type} (fs : List (String × A)) (k : String) : Option A :=
  (fs.find? fun p => p.1 == k).map Prod.snd

/-- Python `k in d`. -/
def hasKey {A : Type} (fs : List (String × A)) (k : String) : Bool :=
  (dictGet fs k).isSome

/-- The `filtered_data` comprehension of `RawPriceBroadcaster._subscriber`
(raw_price_broadcaster.py 82-88): keep an entry iff its uppercased symbol
is in the whitelist, its value is a dict, and it has a `b` or an `o`
field. -/
def filtered_data {A : Type} (market_data : List (String × TickVal A)) :
    List (String × List (String × A)) :=
  market_data.filterMap fun e =>
    match e.2 with
    | .dict fs =>
      if pyUpper e.1 ∈ symbols_to_broadcast ∧ (hasKey fs "b" ∨ hasKey fs "o")
      then some (e.1, fs) else none
    | .atom _ => none

/-- The reshaped public quote `{bid, ask, timestamp}`. -/
structure PublicQuote (A : Type) where
  bid : Option A
  ask : Option A
  timestamp : Option (TickVal A)

/-- One entry of the `public_data` comprehension
(raw_price_broadcaster.py 93-100): bid from `b` else `bid`, ask from `o`
else `ask`, timestamp from the batch's `_timestamp` entry. -/
def reshape_entry {A : Type} (market_data : List (String × TickVal A))
    (fs : List (String × A)) : PublicQuote A :=
  ⟨(dictGet fs "b").orElse (fun _ => dictGet fs "bid"),
   (dictGet fs "o").orElse (fun _ => dictGet fs "ask"),
   dictGet market_data "_timestamp"⟩

/-- `public_data`: the reshaped retained entries, broadcast as one message. -/
def public_data {A : Type} (market_data : List (String × TickVal A)) :
    List (String × PublicQuote A) :=
  (filtered_data market_data).map fun e => (e.1, reshape_entry market_data e.2)

/-- C9: an entry reaches the broadcast batch exactly when its uppercased
symbol is whitelisted, its value is a dict, and it carries a `b` or an `o`
field; each retained entry is reshaped to bid (`b` else `bid`), ask (`o`
else `ask`) and the batch `_timestamp`.  In particular a symbol that is
not in the whitelist (such as FOO123) never appears in the broadcast
message, so it is never delivered to any subscriber. -/
theorem raw_price_broadcaster_retains_iff {A : Type}
    (market_data : List (String × TickVal A)) (sym : String) (q : PublicQuote A) :
    (sym, q) ∈ public_data market_data ↔
      ∃ fs, (sym, TickVal.dict fs) ∈ market_data
        ∧ pyUpper sym ∈ symbols_to_broadcast
        ∧ (hasKey fs "b" = true ∨ hasKey fs "o" = true)
        ∧ q = reshape_entry market_data fs := by
  constructor
  · intro h
    rw [public_data] at h
    obtain ⟨⟨s1, fs⟩, hf, heq⟩ := List.mem_map.mp h
    obtain ⟨⟨s0, tv⟩, hmem, hg⟩ := List.mem_filterMap.mp hf
    simp only [Prod.mk.injEq] at heq
    cases tv with
    | atom v => simp at hg
    | dict fs0 =>
      dsimp only at hg
      by_cases hc : pyUpper s0 ∈ symbols_to_broadcast ∧ (hasKey fs0 "b" ∨ hasKey fs0 "o")
      · rw [if_pos hc, Option.some_inj, Prod.mk.injEq] at hg
        obtain ⟨hs0, hfs0⟩ := hg
        refine ⟨fs, ?_, ?_, ?_, ?_⟩
        · rw [← heq.1, ← hs0, ← hfs0]; exact hmem
        · rw [← heq.1, ← hs0]; exact hc.1
        · rcases hc.2 with hb | ho
          · exact Or.inl (by rw [← hfs0]; exact hb)
          · exact Or.inr (by rw [← hfs0]; exact ho)
        · exact heq.2.symm
      · rw [if_neg hc] at hg
        exact absurd hg (by simp)
  · rintro ⟨fs, hmem, hwl, hbo, hq⟩
    rw [public_data]
    apply List.mem_map.mpr
    refine ⟨(sym, fs), ?_, by rw [hq]⟩
    apply List.mem_filterMap.mpr
    refine ⟨(sym, TickVal.dict fs), hmem, ?_⟩
    dsimp only
    rw [if_pos ⟨hwl, by rcases hbo with hb | ho; exacts [Or.inl hb, Or.inr ho]⟩]

/-- Witness scenario: a FOO123 tick with a bid never enters the broadcast
batch because FOO123 is not whitelisted. -/
theorem raw_price_broadcaster_drops_foo123 :
    ¬ ∃ q : PublicQuote Nat,
      ("FOO123", q) ∈ public_data [("FOO123", TickVal.dict [("b", 1)])] := by
  rintro ⟨q, hq⟩
  obtain ⟨fs, hmem, hwl, hbo, hq'⟩ :=
    (raw_price_broadcaster_retains_iff
      [("FOO123", TickVal.dict [("b", 1)])] "FOO123" q).mp hq
  revert hwl
  decide

/-! ## Broadcaster subscriber set
(src/app/services/raw_price_broadcaster.py 35-65,
src/app/api/v1/endpoints/public_market_data_ws.py 90-101)

`active_connections` is a Python set of websockets; websockets are ids
here.  `set.remove` raises KeyError when the element is absent. -/

inductive PyErr where
  | keyError
  deriving DecidableEq

/-- `RawPriceBroadcaster.disconnect`:
`self.active_connections.remove(websocket)` (the subscriber-task shutdown
that follows does not touch the set). -/
def RawPriceBroadcaster.disconnect (conns : Finset Nat) (ws : Nat) :
    Except PyErr (Finset Nat) :=
  if ws ∈ conns then .ok (conns.erase ws) else .error .keyError

/-- The cleanup loop ending `RawPriceBroadcaster.broadcast`:
`for connection in disconnected: await self.disconnect(connection)`. -/
def disconnectAll (l : List Nat) (conns : Finset Nat) : Except PyErr (Finset Nat) :=
  match l with
  | [] => .ok conns
  | c :: rest =>
    match RawPriceBroadcaster.disconnect conns c with
    | .ok conns2 => disconnectAll rest conns2
    | .error e => .error e

/-- `RawPriceBroadcaster.broadcast`: send the message to every subscriber;
a connection whose send fails (`fails`) is collected into `disconnected`
and removed through the same `disconnect` path.  Python iterates the set
in an arbitrary order; here the failed connections are taken in ascending
order (any fixed order of the same set). -/
def RawPriceBroadcaster.broadcast (conns : Finset Nat) (fails : Nat → Bool) :
    Except PyErr (Finset Nat) :=
  disconnectAll ((conns.filter fun c => fails c = true).sort (· ≤ ·)) conns

/-- Removing a duplicate-free list of current members succeeds and leaves
the set difference. -/
theorem disconnectAll_ok (l : List Nat) (conns : Finset Nat)
    (hnd : l.Nodup) (hmem : ∀ c ∈ l, c ∈ conns) :
    disconnectAll l conns = .ok (conns \ l.toFinset) := by
  induction l generalizing conns with
  | nil => simp [disconnectAll]
  | cons c rest ih =>
    have hd : RawPriceBroadcaster.disconnect conns c = .ok (conns.erase c) := by
      rw [RawPriceBroadcaster.disconnect, if_pos (hmem c (List.mem_cons_self c rest))]
    rw [List.nodup_cons] at hnd
    have hrest : ∀ x ∈ rest, x ∈ conns.erase c := by
      intro x hx
      rw [Finset.mem_erase]
      exact ⟨fun he => hnd.1 (he ▸ hx), hmem x (List.mem_cons_of_mem c hx)⟩
    have hstep : disconnectAll (c :: rest) conns = disconnectAll rest (conns.erase c) := by
      rw [disconnectAll, hd]
    rw [hstep, ih (conns.erase c) hnd.2 hrest]
    congr 1
    ext x
    simp only [Finset.mem_sdiff, Finset.mem_erase, List.toFinset_cons,
      Finset.mem_insert, List.mem_toFinset]
    constructor
    · rintro ⟨⟨hxc, hxconns⟩, hxr⟩
      exact ⟨hxconns, by rintro (h | h); exacts [hxc h, hxr h]⟩
    · rintro ⟨hxconns, hnot⟩
      exact ⟨⟨fun h => hnot (Or.inl h), hxconns⟩,
        fun h => hnot (Or.inr h)⟩

/-- C10: `RawPriceBroadcaster.disconnect` is not idempotent — on a
websocket absent from `active_connections` it raises KeyError — and a
subscriber that `broadcast` already removed after a failed send makes the
endpoint's subsequent `disconnect` in its `finally` block raise KeyError
instead of completing cleanup. -/
theorem raw_price_broadcaster_disconnect_not_idempotent :
    (∀ (conns : Finset Nat) (ws : Nat), ws ∉ conns →
        RawPriceBroadcaster.disconnect conns ws = .error .keyError)
    ∧ (∀ (conns : Finset Nat) (fails : Nat → Bool) (ws : Nat),
        ws ∈ conns → fails ws = true →
        ∃ conns2, RawPriceBroadcaster.broadcast conns fails = .ok conns2
          ∧ RawPriceBroadcaster.disconnect conns2 ws = .error .keyError) := by
  constructor
  · intro conns ws h
    rw [RawPriceBroadcaster.disconnect, if_neg h]
  · intro conns fails ws hin hfail
    refine ⟨conns \ ((conns.filter fun c => fails c = true).sort (· ≤ ·)).toFinset,
      ?_, ?_⟩
    · exact disconnectAll_ok _ conns (Finset.sort_nodup _ _)
        (fun c hc => (Finset.mem_filter.mp ((Finset.mem_sort _).mp hc)).1)
    · rw [RawPriceBroadcaster.disconnect, if_neg]
      rw [Finset.mem_sdiff]
      rintro ⟨-, habs⟩
      exact habs (List.mem_toFinset.mpr ((Finset.mem_sort _).mpr
        (Finset.mem_filter.mpr ⟨hin, hfail⟩)))

/-- Witness: the disconnect of an absent websocket raises, and after a
broadcast in which subscriber 0's send failed, disconnecting 0 raises. -/
theorem raw_price_broadcaster_disconnect_not_idempotent_witness :
    RawPriceBroadcaster.disconnect (∅ : Finset Nat) 0 = .error .keyError
    ∧ ∃ conns2,
        RawPriceBroadcaster.broadcast ({0} : Finset Nat) (fun _ => true) = .ok conns2
        ∧ RawPriceBroadcaster.disconnect conns2 0 = .error .keyError :=
  ⟨raw_price_broadcaster_disconnect_not_idempotent.1 ∅ 0 (by decide),
   raw_price_broadcaster_disconnect_not_idempotent.2 {0} (fun _ => true) 0
     (by decide) rfl⟩

/-! ## Codec: decimal-preserving JSON round-trip
(src/app/core/cache.py 1489-1510)

Python's decimal library is external; it enters as a codec giving
`str(d)` and `Decimal(s)` (`none` = InvalidOperation).  The documented
library fact used is that `Decimal(str(d))` recovers `d` exactly —
to-scientific-string preserves sign, coefficient digits and exponent, so
trailing zeros survive (str(Decimal("12.340")) is "12.340").  Equality of
`Dec` values is structural, i.e. exact-representation equality, which is
the bit-for-bit reading of the claim.  JSON text serialization is
lossless for the tree, so `json.dumps`/`json.loads` are modelled at the
tree level: a Python value maps to a JSON tree and back. -/

structure DecimalCodec (Dec : Type) where
  decStr : Dec → String
  decParse : String → Option Dec

mutual
/-- A Python value as cached: strings, ints, Decimals, bools, None,
datetimes (carried as their ISO string), lists and dicts. -/
inductive PyVal (Dec : Type) where
  | pstr (s : String)
  | pint (n : Int)
  | pdec (d : Dec)
  | pbool (b : Bool)
  | pnull
  | pdate (iso : String)
  | plist (xs : PyList Dec)
  | pdict (fs : PyDict Dec)
inductive PyList (Dec : Type) where
  | nil
  | cons (x : PyVal Dec) (xs : PyList Dec)
inductive PyDict (Dec : Type) where
  | nil
  | cons (k : String) (v : PyVal Dec) (fs : PyDict Dec)
end

mutual
/-- A JSON tree (what the dumped text parses back to). -/
inductive JVal where
  | jstr (s : String)
  | jint (n : Int)
  | jbool (b : Bool)
  | jnull
  | jarr (xs : JList)
  | jobj (fs : JObj)
inductive JList where
  | nil
  | cons (x : JVal) (xs : JList)
inductive JObj where
  | nil
  | cons (k : String) (v : JVal) (fs : JObj)
end

mutual
/-- `json.dumps(v, cls=DecimalEncoder)` at tree level: the json module
serializes strings, ints, bools, None, lists and dicts natively, and
`DecimalEncoder.default` (cache.py 1489-1495) renders a Decimal as
`str(o)` and a datetime as `o.isoformat()`. -/
def dumps_DecimalEncoder {Dec : Type} (c : DecimalCodec Dec) : PyVal Dec → JVal
  | .pstr s => .jstr s
  | .pint n => .jint n
  | .pdec d => .jstr (c.decStr d)
  | .pbool b => .jbool b
  | .pnull => .jnull
  | .pdate iso => .jstr iso
  | .plist xs => .jarr (dumps_DecimalEncoder_list c xs)
  | .pdict fs => .jobj (dumps_DecimalEncoder_dict c fs)
def dumps_DecimalEncoder_list {Dec : Type} (c : DecimalCodec Dec) : PyList Dec → JList
  | .nil => .nil
  | .cons x xs => .cons (dumps_DecimalEncoder c x) (dumps_DecimalEncoder_list c xs)
def dumps_DecimalEncoder_dict {Dec : Type} (c : DecimalCodec Dec) : PyDict Dec → JObj
  | .nil => .nil
  | .cons k v fs =>
    .cons k (dumps_DecimalEncoder c v) (dumps_DecimalEncoder_dict c fs)
end

mutual
/-- `decode_decimal` (cache.py 1498-1510): recursively walk dicts and
lists, converting every string that parses as a Decimal into that
Decimal, leaving everything else as is. -/
def decode_decimal {Dec : Type} (c : DecimalCodec Dec) : PyVal Dec → PyVal Dec
  | .pdict fs => .pdict (decode_decimal_dict c fs)
  | .plist xs => .plist (decode_decimal_list c xs)
  | .pstr s =>
    match c.decParse s with
    | some d => .pdec d
    | none => .pstr s
  | v => v
def decode_decimal_list {Dec : Type} (c : DecimalCodec Dec) : PyList Dec → PyList Dec
  | .nil => .nil
  | .cons x xs => .cons (decode_decimal c x) (decode_decimal_list c xs)
def decode_decimal_dict {Dec : Type} (c : DecimalCodec Dec) : PyDict Dec → PyDict Dec
  | .nil => .nil
  | .cons k v fs => .cons k (decode_decimal c v) (decode_decimal_dict c fs)
end

mutual
/-- `json.loads(text, object_hook=decode_decimal)` at tree level: parse
the tree to Python values and apply the hook to every dict, innermost
first (the json module calls the hook on each parsed object). -/
def loads_decode_decimal {Dec : Type} (c : DecimalCodec Dec) : JVal → PyVal Dec
  | .jstr s => .pstr s
  | .jint n => .pint n
  | .jbool b => .pbool b
  | .jnull => .pnull
  | .jarr xs => .plist (loads_decode_decimal_list c xs)
  | .jobj fs => decode_decimal c (.pdict (loads_decode_decimal_dict c fs))
def loads_decode_decimal_list {Dec : Type} (c : DecimalCodec Dec) : JList → PyList Dec
  | .nil => .nil
  | .cons x xs => .cons (loads_decode_decimal c x) (loads_decode_decimal_list c xs)
def loads_decode_decimal_dict {Dec : Type} (c : DecimalCodec Dec) : JObj → PyDict Dec
  | .nil => .nil
  | .cons k v fs =>
    .cons k (loads_decode_decimal c v) (loads_decode_decimal_dict c fs)
end

mutual
/-- A decimal-bearing value in the sense of the claim: decimal data is
held as Decimal values, so no string field itself parses as a decimal
(otherwise that field is a decimal field stored as a string), and no
datetime fields (they decode back to plain strings). -/
def pyGood {Dec : Type} (c : DecimalCodec Dec) : PyVal Dec → Bool
  | .pstr s => (c.decParse s).isNone
  | .pdate _ => false
  | .plist xs => pyGoodList c xs
  | .pdict fs => pyGoodDict c fs
  | _ => true
def pyGoodList {Dec : Type} (c : DecimalCodec Dec) : PyList Dec → Bool
  | .nil => true
  | .cons x xs => pyGood c x && pyGoodList c xs
def pyGoodDict {Dec : Type} (c : DecimalCodec Dec) : PyDict Dec → Bool
  | .nil => true
  | .cons _ v fs => pyGood c v && pyGoodDict c fs
end

mutual
/-- `decode_decimal` is the identity on decimal-bearing values. -/
theorem decode_decimal_id_of_good {Dec : Type} (c : DecimalCodec Dec) :
    ∀ v : PyVal Dec, pyGood c v = true → decode_decimal c v = v
  | .pstr s, h => by
    rw [decode_decimal]
    cases hp : c.decParse s with
    | none => rfl
    | some d =>
      rw [pyGood, hp] at h
      simp at h
  | .pint n, _ => rfl
  | .pdec d, _ => rfl
  | .pbool b, _ => rfl
  | .pnull, _ => rfl
  | .pdate iso, h => by rw [pyGood] at h; simp at h
  | .plist xs, h => by
    rw [pyGood] at h
    rw [decode_decimal, decode_decimal_list_id_of_good c xs h]
  | .pdict fs, h => by
    rw [pyGood] at h
    rw [decode_decimal, decode_decimal_dict_id_of_good c fs h]
theorem decode_decimal_list_id_of_good {Dec : Type} (c : DecimalCodec Dec) :
    ∀ xs : PyList Dec, pyGoodList c xs = true → decode_decimal_list c xs = xs
  | .nil, _ => rfl
  | .cons x xs, h => by
    rw [pyGoodList, Bool.and_eq_true] at h
    rw [decode_decimal_list, decode_decimal_id_of_good c x h.1,
      decode_decimal_list_id_of_good c xs h.2]
theorem decode_decimal_dict_id_of_good {Dec : Type} (c : DecimalCodec Dec) :
    ∀ fs : PyDict Dec, pyGoodDict c fs = true → decode_decimal_dict c fs = fs
  | .nil, _ => rfl
  | .cons k v fs, h => by
    rw [pyGoodDict, Bool.and_eq_true] at h
    rw [decode_decimal_dict, decode_decimal_id_of_good c v h.1,
      decode_decimal_dict_id_of_good c fs h.2]
end

mutual
/-- Core round-trip: decoding the dumped tree and then applying the
decimal hook restores a decimal-bearing value, given the decimal
library's `Decimal(str(d)) = d` law. -/
theorem decode_loads_dumps {Dec : Type} (c : DecimalCodec Dec)
    (hc : ∀ d, c.decParse (c.decStr d) = some d) :
    ∀ v : PyVal Dec, pyGood c v = true →
      decode_decimal c (loads_decode_decimal c (dumps_DecimalEncoder c v)) = v
  | .pstr s, h => by
    rw [dumps_DecimalEncoder, loads_decode_decimal, decode_decimal]
    cases hp : c.decParse s with
    | none => rfl
    | some d =>
      rw [pyGood, hp] at h
      simp at h
  | .pint n, _ => rfl
  | .pdec d, _ => by
    rw [dumps_DecimalEncoder, loads_decode_decimal, decode_decimal, hc d]
  | .pbool b, _ => rfl
  | .pnull, _ => rfl
  | .pdate iso, h => by rw [pyGood] at h; simp at h
  | .plist xs, h => by
    rw [pyGood] at h
    rw [dumps_DecimalEncoder, loads_decode_decimal, decode_decimal,
      decode_loads_dumps_list c hc xs h]
  | .pdict fs, h => by
    rw [pyGood] at h
    rw [dumps_DecimalEncoder, loads_decode_decimal, decode_decimal,
      decode_loads_dumps_dict c hc fs h]
    exact decode_decimal_id_of_good c (.pdict fs) (by rw [pyGood]; exact h)
theorem decode_loads_dumps_list {Dec : Type} (c : DecimalCodec Dec)
    (hc : ∀ d, c.decParse (c.decStr d) = some d) :
    ∀ xs : PyList Dec, pyGoodList c xs = true →
      decode_decimal_list c (loads_decode_decimal_list c (dumps_DecimalEncoder_list c xs)) = xs
  | .nil, _ => rfl
  | .cons x xs, h => by
    rw [pyGoodList, Bool.and_eq_true] at h
    rw [dumps_DecimalEncoder_list, loads_decode_decimal_list, decode_decimal_list,
      decode_loads_dumps c hc x h.1, decode_loads_dumps_list c hc xs h.2]
theorem decode_loads_dumps_dict {Dec : Type} (c : DecimalCodec Dec)
    (hc : ∀ d, c.decParse (c.decStr d) = some d) :
    ∀ fs : PyDict Dec, pyGoodDict c fs = true →
      decode_decimal_dict c (loads_decode_decimal_dict c (dumps_DecimalEncoder_dict c fs)) = fs
  | .nil, _ => rfl
  | .cons k v fs, h => by
    rw [pyGoodDict, Bool.and_eq_true] at h
    rw [dumps_DecimalEncoder_dict, loads_decode_decimal_dict, decode_decimal_dict,
      decode_loads_dumps c hc v h.1, decode_loads_dumps_dict c hc fs h.2]
end

/-- C6: for every decimal-bearing dict (decimal fields held as Decimal
values — no string field itself decimal-parseable, no datetime fields),
decoding the encoding restores the value exactly, Decimal representations
included: `DecimalEncoder` renders each Decimal as its exact decimal
string (never a binary float) and `decode_decimal` parses it back to the
structurally equal Decimal, trailing zeros preserved. -/
theorem loads_dumps_decimal_roundtrip {Dec : Type} (c : DecimalCodec Dec)
    (hc : ∀ d, c.decParse (c.decStr d) = some d)
    (fs : PyDict Dec) (h : pyGoodDict c fs = true) :
    loads_decode_decimal c (dumps_DecimalEncoder c (.pdict fs)) = .pdict fs := by
  rw [dumps_DecimalEncoder, loads_decode_decimal, decode_decimal,
    decode_loads_dumps_dict c hc fs h]

/-- Shape of a plain decimal literal (digits with an optional point), the
concrete fragment the witness exercises. -/
def decimalShaped (s : String) : Bool :=
  decide (s.length > 0) && s.data.all fun ch => ch.isDigit || ch == '.'

/-- A concrete stand-in for the external Decimal type: the exact decimal
literal itself, so structural equality is exact-string equality and
trailing zeros are visibly preserved. -/
def ToyDec : Type := {s : String // decimalShaped s = true}

instance : DecidableEq ToyDec := fun a b =>
  decidable_of_iff (a.val = b.val) Subtype.ext_iff.symm

/-- The toy decimal codec: `str` is the literal, `Decimal` accepts
exactly the decimal-shaped literals. -/
def toyDecimalCodec : DecimalCodec ToyDec :=
  ⟨Subtype.val,
   fun s => if h : decimalShaped s = true then some ⟨s, h⟩ else none⟩

/-- The toy codec satisfies the decimal library law. -/
theorem toyDecimalCodec_parse_str (d : ToyDec) :
    toyDecimalCodec.decParse (toyDecimalCodec.decStr d) = some d := by
  obtain ⟨s, hs⟩ := d
  show (if h : decimalShaped s = true then some (⟨s, h⟩ : ToyDec) else none)
      = some ⟨s, hs⟩
  rw [dif_pos hs]

/-- Witness: the dict with a Decimal field "12.340" and a plain string
field "hello" round-trips exactly — the decoded Decimal still reads
"12.340", not "12.34". -/
theorem loads_dumps_decimal_roundtrip_witness :
    loads_decode_decimal toyDecimalCodec
        (dumps_DecimalEncoder toyDecimalCodec
          (.pdict (.cons "amount" (.pdec ⟨"12.340", by decide⟩)
            (.cons "note" (.pstr "hello") .nil))))
      = .pdict (.cons "amount" (.pdec ⟨"12.340", by decide⟩)
          (.cons "note" (.pstr "hello") .nil)) :=
  loads_dumps_decimal_roundtrip toyDecimalCodec toyDecimalCodec_parse_str
    (.cons "amount" (.pdec ⟨"12.340", by decide⟩)
      (.cons "note" (.pstr "hello") .nil))
    (by decide)
